import Mathlib

/-!
Verification of the simple-finance repository against its specification.

The definitions below are shallow embeddings of the Python source:

* `pipelines/crsp.py` — the identifier-driven batch query builder
  `get_crsp_msf_by_ids` (identifier classification, validation, chunking,
  per-chunk filter-clause construction);
* `pipelines/dartmouth.py` — the Fama-French table normalizers `get_ff5` /
  `get_ff3` and the factor-merge step of `get_ff_strategies`;
* `tools/black_scholes.py` — `black_scholes` and `implied_volatility`;
* `tools/portfolio_tools.py` — `portfolio_volatility`, `EFRS_portfolio`,
  `portfolio_sharpe`, `tangent_portfolio`.

Python strings are embedded as `List Char` manipulations so that every
definition is computable and concrete instances can be settled by `decide`.
External collaborators (pandas date parsing, the SQL connection, scipy
optimizers and root finders) are modelled at their documented interfaces;
each such model carries a doc comment saying exactly what is modelled.
-/

namespace SimpleFinance

instance {ε α : Type} [DecidableEq ε] [DecidableEq α] : DecidableEq (Except ε α) := fun x y =>
  match x, y with
  | .ok a, .ok b =>
    if h : a = b then .isTrue (by rw [h]) else .isFalse (by simp [h])
  | .error e, .error f =>
    if h : e = f then .isTrue (by rw [h]) else .isFalse (by simp [h])
  | .ok _, .error _ => .isFalse (by simp)
  | .error _, .ok _ => .isFalse (by simp)

/-! ### Python string primitives, embedded on `List Char` -/

/-- Python `str.strip()`: remove leading and trailing whitespace. -/
def pyStrip (cs : List Char) : List Char :=
  ((cs.dropWhile Char.isWhitespace).reverse.dropWhile Char.isWhitespace).reverse

/-- Python `str.isdigit()` on the ASCII inputs exercised here: the string is
nonempty and every character is a digit. -/
def pyIsdigit (cs : List Char) : Bool :=
  !cs.isEmpty && cs.all Char.isDigit

/-- Python `str.upper()` (ASCII). -/
def pyUpper (cs : List Char) : List Char :=
  cs.map Char.toUpper

/-- Numeric value of a digit string (how Python `int` reads an all-digit
string). -/
def digitsToNat (cs : List Char) : Nat :=
  cs.foldl (fun a c => 10 * a + (c.toNat - 48)) 0

/-- Split a character list at every dash, like Python `s.split(chr(45))`. -/
def splitOnDash : List Char → List (List Char)
  | [] => [[]]
  | c :: rest =>
    let r := splitOnDash rest
    if c = Char.ofNat 45 then [] :: r
    else
      match r with
      | h :: t => (c :: h) :: t
      | [] => [[c]]

/-- The single-quote or double-quote characters the ticker sanity check of
crsp.py line 67 forbids. -/
def isQuoteChar (c : Char) : Bool :=
  c.toNat == 39 || c.toNat == 34

/-- Whether a ticker contains a quote character (crsp.py line 67). -/
def hasQuote (cs : List Char) : Bool :=
  cs.any isQuoteChar

/-! ### CRSP batch query builder (pipelines/crsp.py) -/

/-- An element of the `identifiers` argument of `get_crsp_msf_by_ids`:
`Union[str, int]` — a ticker string or a numeric PERMNO. -/
inductive Ident where
  | str (s : String)
  | intg (n : Int)
deriving DecidableEq

/-- `is_numeric_like` from crsp.py lines 50-55: an `int`, or a string whose
stripped form is all digits. -/
def isNumericLike : Ident → Bool
  | .intg _ => true
  | .str s => pyIsdigit (pyStrip s.data)

/-- Python `str(x)` for an identifier, as a character list. -/
def identChars : Ident → List Char
  | .str s => s.data
  | .intg n => (toString n).data

/-- `str(x).strip().upper()` — ticker normalization from crsp.py line 65. -/
def normTicker (x : Ident) : List Char :=
  pyUpper (pyStrip (identChars x))

/-- `int(x)` applied to a numeric-like identifier (crsp.py line 61). -/
def identToInt : Ident → Int
  | .intg n => n
  | .str s => Int.ofNat (digitsToNat (pyStrip s.data))

/-- A calendar month `(year, month)`: the monthly period the date window is
normalized to. -/
abbrev Period := Int × Nat

/-- Models the date parsing `pd.Period(s, freq="M")` performs on the textual
year-month inputs the batcher documents (its own error message demands
the YYYY-MM format, crsp.py line 42): four digits, a dash, a one- or
two-digit month between 1 and 12.  Anything else is treated as unparseable,
which in the source raises the ValueError of crsp.py lines 41-42. -/
def parsePeriodM (s : String) : Option Period :=
  match splitOnDash (pyStrip s.data) with
  | [y, m] =>
    if pyIsdigit y && y.length == 4 && pyIsdigit m && m.length ≤ 2
        && 1 ≤ digitsToNat m && digitsToNat m ≤ 12 then
      some (Int.ofNat (digitsToNat y), digitsToNat m)
    else none
  | _ => none

/-- The identifier restriction appended to the base SQL of one chunk
(crsp.py lines 101-109): either a numeric `a.permno IN (...)` list or a
quoted `b.ticker IN (...)` list. -/
inductive WhereIds where
  | permnoIn (ids : List Int)
  | tickerIn (ids : List (List Char))
deriving DecidableEq

/-- One SQL query issued for one chunk: the base SELECT restricted to the
inclusive monthly date window plus the chunk's identifier IN-list
(crsp.py lines 71-111). -/
structure MsfQuery where
  startP : Period
  endP : Period
  whereIds : WhereIds
deriving DecidableEq

/-- The failure taxonomy of `get_crsp_msf_by_ids`, named after the spec's
error taxonomy; each constructor corresponds to one `raise ValueError`
of crsp.py (lines 42, 47 and 68 respectively). -/
inductive CrspError where
  | INVALID_DATE
  | EMPTY_INPUT
  | INVALID_IDENTIFIER
deriving DecidableEq

/-- `chunk(seq, n)` from crsp.py lines 95-97 — consecutive slices
`seq[i:i+n]` — implemented with an explicit fuel argument (the list length)
so the recursion is structural; when `0 < n` each step consumes at least one
element, so the fuel never runs out. -/
def chunkAux {α : Type} : Nat → List α → Nat → List (List α)
  | 0, _, _ => []
  | _ + 1, [], _ => []
  | fuel + 1, a :: rest, n => (a :: rest).take n :: chunkAux fuel ((a :: rest).drop n) n

/-- `chunk(seq, n)` from crsp.py lines 95-97. -/
def chunk {α : Type} (l : List α) (n : Nat) : List (List α) :=
  chunkAux l.length l n

/-- The batch query builder of `get_crsp_msf_by_ids` (crsp.py lines 38-111),
embedded up to the list of SQL queries it issues, in source order: parse the
date window (lines 38-42), reject an empty identifier list (lines 46-47),
classify the identifier kind for the whole batch (lines 50-65), reject
tickers containing quotes (lines 66-68), then build one query per chunk
(lines 95-111).  Query execution and result concatenation (lines 99-121)
are modelled separately by `runChunks`. -/
def getCrspMsfQueries (identifiers : List Ident) (startDate endDate : String)
    (chunkSize : Nat) : Except CrspError (List MsfQuery) :=
  match parsePeriodM startDate, parsePeriodM endDate with
  | some sp, some ep =>
    if identifiers = [] then .error .EMPTY_INPUT
    else if identifiers.all isNumericLike then
      .ok ((chunk (identifiers.map identToInt) chunkSize).map
        (fun sub => ⟨sp, ep, .permnoIn sub⟩))
    else
      let ticks := identifiers.map normTicker
      if ticks.any hasQuote then .error .INVALID_IDENTIFIER
      else .ok ((chunk ticks chunkSize).map (fun sub => ⟨sp, ep, .tickerIn sub⟩))
  | _, _ => .error .INVALID_DATE

/-- The chunk loop of crsp.py lines 99-114: one `pd.read_sql_query` per chunk
query (the execution itself is an external collaborator, passed in as
`exec`), results concatenated in order by `pd.concat`. -/
def runChunks {Row : Type} (exec : MsfQuery → List Row) (qs : List MsfQuery) : List Row :=
  (qs.map exec).flatten

/-! ### Lemmas about `chunk` -/

lemma chunkAux_nil {α : Type} (fuel n : Nat) : chunkAux fuel ([] : List α) n = [] := by
  cases fuel <;> rfl

lemma chunkAux_congr {α : Type} {n : Nat} (hn : 0 < n) :
    ∀ (fuel₁ fuel₂ : Nat) (l : List α), l.length ≤ fuel₁ → l.length ≤ fuel₂ →
      chunkAux fuel₁ l n = chunkAux fuel₂ l n := by
  intro fuel₁
  induction fuel₁ with
  | zero =>
    intro fuel₂ l h1 _
    have : l = [] := List.eq_nil_of_length_eq_zero (Nat.le_zero.mp h1)
    subst this
    rw [chunkAux_nil, chunkAux_nil]
  | succ f ih =>
    intro fuel₂ l h1 h2
    cases l with
    | nil => rw [chunkAux_nil, chunkAux_nil]
    | cons a rest =>
      cases fuel₂ with
      | zero => simp at h2
      | succ f₂ =>
        show _ :: chunkAux f ((a :: rest).drop n) n
            = _ :: chunkAux f₂ ((a :: rest).drop n) n
        have hd : ((a :: rest).drop n).length = (a :: rest).length - n :=
          List.length_drop n (a :: rest)
        have hlen : (a :: rest).length = rest.length + 1 := rfl
        congr 1
        exact ih f₂ _ (by omega) (by omega)

lemma chunk_eq_cons {α : Type} {n : Nat} (hn : 0 < n) (l : List α) (hl : l ≠ []) :
    chunk l n = l.take n :: chunk (l.drop n) n := by
  cases l with
  | nil => exact absurd rfl hl
  | cons a rest =>
    show chunkAux (rest.length + 1) (a :: rest) n = _
    show (a :: rest).take n :: chunkAux rest.length ((a :: rest).drop n) n = _
    congr 1
    have hd : ((a :: rest).drop n).length = (a :: rest).length - n :=
      List.length_drop n (a :: rest)
    exact chunkAux_congr hn rest.length _ _ (by simp at hd ⊢; omega) le_rfl

lemma chunk_length {α : Type} (n : Nat) (hn : 0 < n) (l : List α) :
    (chunk l n).length = (l.length + n - 1) / n := by
  by_cases hl : l = []
  · subst hl
    show (0 : Nat) = (0 + n - 1) / n
    rw [Nat.div_eq_of_lt (by omega)]
  · rw [chunk_eq_cons hn l hl]
    have hd : 0 < l.length := List.length_pos.mpr hl
    have ih := chunk_length n hn (l.drop n)
    simp only [List.length_cons, ih, List.length_drop]
    rcases le_or_lt n l.length with h | h
    · have h1 : l.length - n + n - 1 = l.length - 1 := by omega
      have h2 : l.length + n - 1 = (l.length - 1) + n := by omega
      rw [h1, h2, Nat.add_div_right _ hn]
    · have h1 : l.length - n = 0 := by omega
      rw [h1]
      rw [Nat.div_eq_of_lt (by omega)]
      symm
      exact Nat.div_eq_of_lt_le (by omega) (by omega)
termination_by l.length
decreasing_by
  have hd : 0 < l.length := List.length_pos.mpr hl
  simp only [List.length_drop]
  omega

lemma chunk_flatten {α : Type} (n : Nat) (hn : 0 < n) (l : List α) :
    (chunk l n).flatten = l := by
  by_cases hl : l = []
  · subst hl; rfl
  · rw [chunk_eq_cons hn l hl]
    have ih := chunk_flatten n hn (l.drop n)
    simp only [List.flatten_cons, ih, List.take_append_drop]
termination_by l.length
decreasing_by
  have hd : 0 < l.length := List.length_pos.mpr hl
  simp only [List.length_drop]
  omega

lemma chunk_sizes {α : Type} (n : Nat) (hn : 0 < n) (l : List α) :
    ∀ s ∈ chunk l n, s.length ≤ n := by
  by_cases hl : l = []
  · subst hl; intro s hs; cases hs
  · rw [chunk_eq_cons hn l hl]
    intro s hs
    rcases List.mem_cons.mp hs with h | h
    · subst h
      simp [List.length_take]
    · exact chunk_sizes n hn (l.drop n) s h
termination_by l.length
decreasing_by
  have hd : 0 < l.length := List.length_pos.mpr hl
  simp only [List.length_drop]
  omega

/-! ### Claims about the batch query builder -/

/-- C4: for every identifier list and positive chunk size `c`, the batcher
splits the list into consecutive chunks of at most `c` identifiers —
`ceil(n/c)` chunks whose concatenation is the original list — and issues
exactly one query per chunk; for any execution of the per-chunk queries the
concatenated result's row count equals the sum of the per-chunk row counts.
In particular a homogeneous (all numeric-like) request is turned into
exactly the per-chunk `permno IN` queries. -/
theorem batch_chunking {α β : Type} (l : List α) (c : Nat) (hc : 0 < c)
    (exec : List α → List β) :
    (chunk l c).length = (l.length + c - 1) / c
    ∧ (∀ s ∈ chunk l c, s.length ≤ c)
    ∧ (chunk l c).flatten = l
    ∧ ((chunk l c).map exec).length = (chunk l c).length
    ∧ ((chunk l c).map exec).flatten.length
        = (((chunk l c).map exec).map List.length).sum
    ∧ ∀ (ids : List Ident) (ss es : String) (sp ep : Period),
        parsePeriodM ss = some sp → parsePeriodM es = some ep →
        ids ≠ [] → ids.all isNumericLike = true →
        getCrspMsfQueries ids ss es c
          = .ok ((chunk (ids.map identToInt) c).map
              (fun sub => ⟨sp, ep, WhereIds.permnoIn sub⟩)) := by
  refine ⟨chunk_length c hc l, chunk_sizes c hc l, chunk_flatten c hc l,
    List.length_map _ _, List.length_flatten _, ?_⟩
  intro ids ss es sp ep hs he hne hnum
  simp [getCrspMsfQueries, hs, he, hne, hnum]

/-- Witness for `batch_chunking`: a 1,200-identifier request with chunk size
500 yields exactly 3 chunks, the concatenated rows count to the per-chunk
sum, and a concrete numeric request produces its `permno IN` query. -/
theorem batch_chunking_witness :
    (0 : Nat) < 500
    ∧ (chunk (List.replicate 1200 (0 : Nat)) 500).length = 3
    ∧ ((chunk (List.replicate 1200 (0 : Nat)) 500).map (fun s => s)).flatten.length
        = (((chunk (List.replicate 1200 (0 : Nat)) 500).map (fun s => s)).map
            List.length).sum
    ∧ getCrspMsfQueries [Ident.intg 14593] "2020-01" "2020-12" 500
        = .ok [⟨(2020, 1), (2020, 12), WhereIds.permnoIn [14593]⟩] := by
  have h := batch_chunking (List.replicate 1200 (0 : Nat)) 500 (by decide)
    (fun s => s)
  refine ⟨by decide, ?_, h.2.2.2.2.1, ?_⟩
  · rw [h.1, List.length_replicate]
  · have h2 := h.2.2.2.2.2 [Ident.intg 14593] "2020-01" "2020-12" (2020, 1)
      (2020, 12) (by decide) (by decide) (by decide) (by decide)
    rw [h2]; decide

/-- C1 counterexample: the mixed-kind identifier list `["AAPL", 14593]` is
not rejected with INVALID_IDENTIFIER — the batch query fetch proceeds,
classifying the whole list as tickers and stringifying the numeric
identifier, and returns a ticker IN-list query. -/
theorem mixed_kind_not_rejected :
    getCrspMsfQueries [Ident.str "AAPL", Ident.intg 14593] "2020-01" "2020-12" 500
      = .ok [⟨(2020, 1), (2020, 12),
          WhereIds.tickerIn [['A', 'A', 'P', 'L'], ['1', '4', '5', '9', '3']]⟩] := by
  decide

/-- C1 amended: an identifier list that is not all numeric-like (in
particular, any mixed-kind list such as `["AAPL", 14593]`) is classified
wholly as tickers — each identifier stringified, stripped and upper-cased —
and the fetch proceeds to issue the ticker queries; INVALID_IDENTIFIER is
raised only when some resulting ticker contains a quote character, never
for mixing kinds. -/
theorem mixed_kind_treated_as_tickers (ids : List Ident) (ss es : String)
    (sp ep : Period) (c : Nat)
    (hs : parsePeriodM ss = some sp) (he : parsePeriodM es = some ep)
    (hne : ids ≠ []) (hmix : ids.all isNumericLike = false)
    (hq : (ids.map normTicker).any hasQuote = false) :
    getCrspMsfQueries ids ss es c
      = .ok ((chunk (ids.map normTicker) c).map
          (fun sub => ⟨sp, ep, WhereIds.tickerIn sub⟩)) := by
  simp [getCrspMsfQueries, hs, he, hne, hmix, hq]

/-- Witness for `mixed_kind_treated_as_tickers` at the claim's own input
`["AAPL", 14593]`. -/
theorem mixed_kind_treated_as_tickers_witness :
    getCrspMsfQueries [Ident.str "AAPL", Ident.intg 14593] "2020-01" "2020-12" 500
      = .ok ((chunk ([Ident.str "AAPL", Ident.intg 14593].map normTicker) 500).map
          (fun sub => ⟨(2020, 1), (2020, 12), WhereIds.tickerIn sub⟩)) :=
  mixed_kind_treated_as_tickers _ _ _ _ _ 500 (by decide) (by decide) (by decide)
    (by decide) (by decide)

/-- C6: whenever the batch is classified as all-tickers and some normalized
ticker contains a single- or double-quote character, the fetch fails with
INVALID_IDENTIFIER: the result is an error, so no IN-list query is ever
constructed and no quoted identifier reaches a filter clause. -/
theorem quoted_ticker_rejected (ids : List Ident) (ss es : String)
    (sp ep : Period) (c : Nat)
    (hs : parsePeriodM ss = some sp) (he : parsePeriodM es = some ep)
    (hmix : ids.all isNumericLike = false)
    (hq : ∃ x ∈ ids, hasQuote (normTicker x) = true) :
    getCrspMsfQueries ids ss es c = .error .INVALID_IDENTIFIER := by
  obtain ⟨x, hx, hxq⟩ := hq
  have hne : ids ≠ [] := List.ne_nil_of_mem hx
  have hany : (ids.map normTicker).any hasQuote = true := by
    rw [List.any_eq_true]
    exact ⟨normTicker x, List.mem_map_of_mem normTicker hx, hxq⟩
  simp [getCrspMsfQueries, hs, he, hne, hmix, hany]

/-- Witness for `quoted_ticker_rejected`: a one-element ticker list whose
ticker contains a single quote (character 39). -/
theorem quoted_ticker_rejected_witness :
    getCrspMsfQueries [Ident.str (String.mk ['A', Char.ofNat 39, 'B'])]
        "2020-01" "2020-12" 500
      = .error .INVALID_IDENTIFIER :=
  quoted_ticker_rejected _ _ _ (2020, 1) (2020, 12) 500 (by decide) (by decide)
    (by decide) (by decide)

/-- C8 counterexample: with an empty identifier list and an unparseable
start date the fetch fails with INVALID_DATE, not EMPTY_INPUT — the date
check precedes the empty-list check, so "fails with EMPTY_INPUT if the list
is empty" is false as stated. -/
theorem empty_input_iff_counterexample :
    getCrspMsfQueries [] "garbage" "2020-12" 500 = .error .INVALID_DATE
    ∧ getCrspMsfQueries [] "garbage" "2020-12" 500 ≠ .error .EMPTY_INPUT := by
  decide

/-- C8 amended: date validation runs first: if either bound fails to parse
to a calendar month the call fails with INVALID_DATE (whatever the
identifier list); when both bounds parse, the call fails with EMPTY_INPUT
iff the identifier list is empty.  Both failures are errors of the query
builder, so no query is issued. -/
theorem empty_and_date_errors (ids : List Ident) (ss es : String) (c : Nat) :
    ((parsePeriodM ss = none ∨ parsePeriodM es = none) →
        getCrspMsfQueries ids ss es c = .error .INVALID_DATE)
    ∧ (∀ sp ep, parsePeriodM ss = some sp → parsePeriodM es = some ep →
        (getCrspMsfQueries ids ss es c = .error .EMPTY_INPUT ↔ ids = [])) := by
  constructor
  · intro h
    unfold getCrspMsfQueries
    rcases h with h | h
    · rw [h]
    · rw [h]
      cases parsePeriodM ss <;> rfl
  · intro sp ep hs he
    by_cases hne : ids = []
    · subst hne
      simp [getCrspMsfQueries, hs, he]
    · simp only [getCrspMsfQueries, hs, he, if_neg hne]
      constructor
      · intro hcontra
        split at hcontra
        · cases hcontra
        · split at hcontra <;> cases hcontra
      · intro h; exact absurd h hne

/-- Witness for `empty_and_date_errors`: the empty list with parseable dates
gives EMPTY_INPUT; a bad date gives INVALID_DATE even alongside a non-empty
list. -/
theorem empty_and_date_errors_witness :
    getCrspMsfQueries [] "2020-01" "2020-12" 500 = .error .EMPTY_INPUT
    ∧ getCrspMsfQueries [Ident.intg 3] "bad" "2020-12" 500
        = .error .INVALID_DATE := by
  constructor
  · exact ((empty_and_date_errors [] "2020-01" "2020-12" 500).2 (2020, 1)
      (2020, 12) (by decide) (by decide)).mpr rfl
  · exact (empty_and_date_errors [Ident.intg 3] "bad" "2020-12" 500).1
      (Or.inl (by decide))

/-! ### Fama-French table normalizers (pipelines/dartmouth.py) -/

/-- A numeric table cell after `pd.to_numeric(..., errors="coerce")`: a
rational value, or `none` for NaN (unparseable / missing).  Rationals stand
in for the floating-point values of the source. -/
abbrev Cell := Option ℚ

/-- The footer marker that terminates the monthly section of the downloaded
factor CSVs (dartmouth.py lines 21 and 75). -/
def ffMarker : List Char := ("Annual Factors: January-December").data

/-- One row's unit rescaling `* 0.01` from percentage points to decimal
fractions (dartmouth.py lines 32 and 87), applied to every non-date cell;
NaN cells stay NaN. -/
def rowScale (cells : List Cell) : List Cell :=
  cells.map (Option.map (fun q => q * (1 / 100)))

/-- `pd.to_datetime(s, format=YYYYMM)`-style parsing of the date column of
the factor files (dartmouth.py lines 27 and 82): six digits, month 1..12. -/
def parseYYYYMM (cs : List Char) : Option Period :=
  if pyIsdigit cs && cs.length == 6 then
    let m := digitsToNat (cs.drop 4)
    if 1 ≤ m && m ≤ 12 then some (Int.ofNat (digitsToNat (cs.take 4)), m)
    else none
  else none

/-- Python-style substring containment on character lists (`.str.contains`
of dartmouth.py lines 21 and 75): the needle occurs as a contiguous run. -/
def containsSeq (needle : List Char) : List Char → Bool
  | [] => needle.isEmpty
  | c :: rest => needle.isPrefixOf (c :: rest) || containsSeq needle rest

/-- Monthly-period order used by `sort_index` and the date-range filters. -/
def periodLE (a b : Period) : Prop :=
  a.1 < b.1 ∨ (a.1 = b.1 ∧ a.2 ≤ b.2)

instance : DecidableRel periodLE := fun a b => by
  unfold periodLE; infer_instance

/-- The common normalization pipeline of `get_ff5` (dartmouth.py lines
21-53) and `get_ff3` (lines 75-96), on the raw rows `pd.read_csv` yields
(first column the textual date, remaining cells numeric-or-NaN): keep the
rows strictly before the first row whose first column contains the
`Annual Factors` footer marker (raising, i.e. MALFORMED_SOURCE, when the
marker is absent — the `.index[0]` of an empty selection); convert the date
column to monthly periods (a ValueError when a kept date does not parse);
rescale every non-date cell by 0.01; drop rows whose cells are all NaN
(`dropna(how="all")` after `set_index`); sort by period; and apply the
optional inclusive date-range filter. -/
def normalizeFF (raw : List (List Char × List Cell))
    (startP endP : Option Period) : Except String (List (Period × List Cell)) :=
  match raw.findIdx? (fun r => containsSeq ffMarker r.1) with
  | none => .error "MALFORMED_SOURCE"
  | some stop =>
    match (raw.take stop).mapM
        (fun r => (parseYYYYMM r.1).map (fun p => (p, r.2))) with
    | none => .error "INVALID_DATE_ROW"
    | some dated =>
      let scaled := dated.map (fun pr => (pr.1, rowScale pr.2))
      let kept := scaled.filter (fun pr => pr.2.any (fun c => c.isSome))
      let sorted := List.insertionSort (fun a b => periodLE a.1 b.1) kept
      .ok (sorted.filter (fun pr =>
        (startP.elim true (fun sp => decide (periodLE sp pr.1))) &&
        (endP.elim true (fun ep => decide (periodLE pr.1 ep)))))

/-- Column labels of the table `get_ff5` returns (after `set_index`), as in
the downloaded five-factor CSV. -/
def ff5Cols : List String := ["Mkt-RF", "SMB", "HML", "RMW", "CMA", "RF"]

/-- The column renaming applied to the five-factor table on dartmouth.py
line 335. -/
def ff5Rename (c : String) : String :=
  if c = "Mkt-RF" then "mkt-rf"
  else if c = "SMB" then "smb"
  else if c = "HML" then "hml"
  else if c = "RMW" then "rmw"
  else if c = "CMA" then "cma"
  else if c = "RF" then "rf"
  else c

/-- The column selection `ff5[[...]]` of dartmouth.py line 336, transcribed
verbatim from the source. -/
def ff5SelectCols : List String := ["mkt-rf", "smb", "hml", "smb", "cma", "rf"]

/-- The ten decile columns of the strategy table `dat3` that
`get_ff_strategies` carries into the merge (dartmouth.py lines 134-137). -/
def decCols : List String :=
  ["Dec 1", "Dec 2", "Dec 3", "Dec 4", "Dec 5",
   "Dec 6", "Dec 7", "Dec 8", "Dec 9", "Dec 10"]

/-- Columns of `pd.merge(dat3, ff5[cols], left_index=True, right_index=True,
how="inner")` (dartmouth.py line 336): the strategy table's columns followed
by the selected factor columns. -/
def mergedCols (strategyCols : List String) : List String :=
  strategyCols ++ ff5SelectCols

/-! ### Claims about the normalizers -/

/-- C2 (code bug): the `factors="FF5"` merge of `get_ff_strategies` renames
`RMW` to `rmw` (showing the intent to carry it), but the selection list on
line 336 names `smb` twice and `rmw` not at all, so the merged table's
columns are `mkt-rf, smb, hml, smb, cma, rf` — `smb` duplicated and no
`rmw` column — contradicting the claimed canonical set. -/
theorem ff5_merge_omits_rmw :
    ff5Rename "RMW" = "rmw"
    ∧ ff5Cols.map ff5Rename = ["mkt-rf", "smb", "hml", "rmw", "cma", "rf"]
    ∧ ff5SelectCols ≠ ["mkt-rf", "smb", "hml", "rmw", "cma", "rf"]
    ∧ "rmw" ∉ ff5SelectCols
    ∧ ff5SelectCols.count "smb" = 2
    ∧ "rmw" ∉ mergedCols decCols
    ∧ mergedCols decCols
        = ["Dec 1", "Dec 2", "Dec 3", "Dec 4", "Dec 5",
           "Dec 6", "Dec 7", "Dec 8", "Dec 9", "Dec 10",
           "mkt-rf", "smb", "hml", "smb", "cma", "rf"] := by
  decide

/-- C7: when the footer marker is present at row `stop` (its first
occurrence), every kept date parses, each kept row has some non-NaN cell
and the kept rows are already in period order, the normalizer returns
exactly the rows strictly before the marker with every non-date cell
multiplied by 0.01. -/
theorem normalize_keeps_prefix_and_scales (raw : List (List Char × List Cell))
    (stop : Nat) (dated : List (Period × List Cell))
    (hstop : raw.findIdx? (fun r => containsSeq ffMarker r.1) = some stop)
    (hdated : (raw.take stop).mapM
        (fun r => (parseYYYYMM r.1).map (fun p => (p, r.2))) = some dated)
    (hnm : ∀ pr ∈ dated, pr.2.any (fun c => c.isSome) = true)
    (hsort : List.Pairwise (fun a b => periodLE a.1 b.1) dated) :
    normalizeFF raw none none
      = .ok (dated.map (fun pr => (pr.1, rowScale pr.2))) := by
  unfold normalizeFF
  simp only [hstop, hdated]
  have hany : ∀ pr ∈ dated.map (fun pr => (pr.1, rowScale pr.2)),
      (pr.2.any (fun c => c.isSome)) = true := by
    intro pr hpr
    obtain ⟨qr, hqr, rfl⟩ := List.mem_map.mp hpr
    simpa [rowScale, List.any_map, Function.comp] using hnm qr hqr
  rw [List.filter_eq_self.mpr hany]
  have hsorted : List.Sorted (fun a b => periodLE a.1 b.1)
      (dated.map (fun pr => (pr.1, rowScale pr.2))) := by
    rw [List.Sorted, List.pairwise_map]
    exact hsort.imp (fun h => h)
  rw [List.Sorted.insertionSort_eq hsorted]
  rw [List.filter_eq_self.mpr (by intro a _; rfl)]

/-- Witness for `normalize_keeps_prefix_and_scales`: the fabricated payload
with percentage column `[1.23, -4.5]` and an `Annual Factors` footer row
normalizes to the two rows before the marker with values
`[0.0123, -0.045]`. -/
theorem normalize_keeps_prefix_and_scales_witness :
    normalizeFF
        [(("192607").data, [some ((123 : ℚ) / 100)]),
         (("192608").data, [some (-(9 : ℚ) / 2)]),
         (ffMarker, [none])] none none
      = .ok [((1926, 7), [some ((123 : ℚ) / 10000)]),
             ((1926, 8), [some (-(9 : ℚ) / 200)])] := by
  have h := normalize_keeps_prefix_and_scales
    [(("192607").data, [some ((123 : ℚ) / 100)]),
     (("192608").data, [some (-(9 : ℚ) / 2)]),
     (ffMarker, [none])] 2
    [((1926, 7), [some ((123 : ℚ) / 100)]), ((1926, 8), [some (-(9 : ℚ) / 2)])]
    (by decide) (by rfl) (by decide) (by decide)
  rw [h]
  simp only [List.map_cons, List.map_nil, rowScale, Option.map_some]
  norm_num

/-! ### Option pricing (tools/black_scholes.py) -/

open MeasureTheory ProbabilityTheory in
/-- The standard normal cumulative distribution function — what
`scipy.stats.norm.cdf` computes — as the integral of the standard Gaussian
density. -/
noncomputable def normCdf (x : ℝ) : ℝ :=
  ∫ t in Set.Iic x, gaussianPDFReal 0 1 t

/-- `r = np.log(1 + rf)` — conversion of the annualized simple risk-free
rate to continuous compounding (black_scholes.py line 7). -/
noncomputable def contRate (rf : ℝ) : ℝ := Real.log (1 + rf)

/-- `d1` of black_scholes.py line 9. -/
noncomputable def bs_d1 (S K T rf sigma : ℝ) : ℝ :=
  (Real.log (S / K) + (contRate rf + 0.5 * sigma ^ 2) * T) / (sigma * Real.sqrt T)

/-- `d2 = d1 - sigma * sqrt(T)` of black_scholes.py line 10. -/
noncomputable def bs_d2 (S K T rf sigma : ℝ) : ℝ :=
  bs_d1 S K T rf sigma - sigma * Real.sqrt T

/-- `black_scholes(type, S, K, T, rf, sigma)` from black_scholes.py lines
5-19; the ValueError for an option type other than call/put (lines 16-17)
is an `Except.error`. -/
noncomputable def black_scholes (kind : String) (S K T rf sigma : ℝ) :
    Except String ℝ :=
  if kind = "call" then
    .ok (S * normCdf (bs_d1 S K T rf sigma)
      - K * Real.exp (-(contRate rf) * T) * normCdf (bs_d2 S K T rf sigma))
  else if kind = "put" then
    .ok (K * Real.exp (-(contRate rf) * T) * normCdf (-(bs_d2 S K T rf sigma))
      - S * normCdf (-(bs_d1 S K T rf sigma)))
  else .error "ValueError: Invalid option type."

open ProbabilityTheory in
/-- The standard Gaussian density is even. -/
lemma gaussianPDFReal_neg (t : ℝ) :
    gaussianPDFReal 0 1 (-t) = gaussianPDFReal 0 1 t := by
  unfold gaussianPDFReal
  norm_num

open MeasureTheory ProbabilityTheory in
/-- Reflection identity for the normal CDF: `Φ(x) + Φ(-x) = 1`. -/
lemma normCdf_add_neg (x : ℝ) : normCdf x + normCdf (-x) = 1 := by
  have h := integral_comp_neg_Iic (-x) (gaussianPDFReal 0 1)
  rw [neg_neg] at h
  simp_rw [gaussianPDFReal_neg] at h
  rw [normCdf, normCdf, h,
    intervalIntegral.integral_Iic_add_Ioi
      ((integrable_gaussianPDFReal 0 1).integrableOn)
      ((integrable_gaussianPDFReal 0 1).integrableOn)]
  exact integral_gaussianPDFReal_eq_one 0 one_ne_zero

open MeasureTheory ProbabilityTheory in
lemma normCdf_nonneg (x : ℝ) : 0 ≤ normCdf x :=
  setIntegral_nonneg measurableSet_Iic (fun t _ => gaussianPDFReal_nonneg 0 1 t)

open MeasureTheory ProbabilityTheory in
lemma normCdf_le_one (x : ℝ) : normCdf x ≤ 1 := by
  rw [normCdf, ← integral_gaussianPDFReal_eq_one 0 one_ne_zero]
  exact setIntegral_le_integral (integrable_gaussianPDFReal 0 1)
    (ae_of_all _ (gaussianPDFReal_nonneg 0 1))

open MeasureTheory ProbabilityTheory in
lemma normCdf_mono {a b : ℝ} (hab : a ≤ b) : normCdf a ≤ normCdf b := by
  rw [normCdf, normCdf]
  exact setIntegral_mono_set ((integrable_gaussianPDFReal 0 1).integrableOn)
    (ae_of_all _ (gaussianPDFReal_nonneg 0 1))
    (HasSubset.Subset.eventuallyLE (Set.Iic_subset_Iic.mpr hab))

/-! ### Claims about option pricing -/

/-- C3: put-call parity: for spot, strike, maturity, volatility positive
and rate above -1, the call and put prices both evaluate and their
difference is exactly `S - K * exp(-ln(1+rf) * T)` (exact equality in the
real-number model, hence within any numerical tolerance). -/
theorem put_call_parity (S K T rf sigma : ℝ)
    (hS : 0 < S) (hK : 0 < K) (hT : 0 < T) (hrf : -1 < rf) (hsig : 0 < sigma) :
    ∃ c p : ℝ,
      black_scholes "call" S K T rf sigma = .ok c
      ∧ black_scholes "put" S K T rf sigma = .ok p
      ∧ c - p = S - K * Real.exp (-(Real.log (1 + rf)) * T) := by
  have hc : black_scholes "call" S K T rf sigma
      = .ok (S * normCdf (bs_d1 S K T rf sigma)
        - K * Real.exp (-(contRate rf) * T) * normCdf (bs_d2 S K T rf sigma)) := by
    unfold black_scholes
    rw [if_pos rfl]
  have hp : black_scholes "put" S K T rf sigma
      = .ok (K * Real.exp (-(contRate rf) * T) * normCdf (-(bs_d2 S K T rf sigma))
        - S * normCdf (-(bs_d1 S K T rf sigma))) := by
    unfold black_scholes
    rw [if_neg (by decide), if_pos rfl]
  refine ⟨_, _, hc, hp, ?_⟩
  have h1 := normCdf_add_neg (bs_d1 S K T rf sigma)
  have h2 := normCdf_add_neg (bs_d2 S K T rf sigma)
  have hr : contRate rf = Real.log (1 + rf) := rfl
  rw [← hr]
  linear_combination S * h1 - K * Real.exp (-(contRate rf) * T) * h2

/-- Witness for `put_call_parity` at `S = K = T = sigma = 1`, `rf = 0`. -/
theorem put_call_parity_witness :
    ∃ c p : ℝ,
      black_scholes "call" 1 1 1 0 1 = .ok c
      ∧ black_scholes "put" 1 1 1 0 1 = .ok p
      ∧ c - p = 1 - 1 * Real.exp (-(Real.log (1 + 0)) * 1) :=
  put_call_parity 1 1 1 0 1 one_pos one_pos one_pos (by norm_num) one_pos

open Classical in
/-- Models `scipy.optimize.brentq(f, a, b)` at its documented interface:
the objective is evaluated at the bracket ends (an exception raised there
propagates, as it would out of the Python callback); if `f(a)` and `f(b)`
have the same nonzero sign it raises the ValueError "f(a) and f(b) must
have different signs"; otherwise it converges to a root of the objective
in `[a, b]` (idealized as the choice of such a root; the final arm, a
sign change with no root, is unreachable for the continuous objectives
Brent's method is specified for). -/
noncomputable def brentq (f : ℝ → Except String ℝ) (a b : ℝ) : Except String ℝ :=
  match f a, f b with
  | .ok fa, .ok fb =>
    if 0 < fa * fb then .error "ValueError: f(a) and f(b) must have different signs"
    else if h : ∃ x, x ∈ Set.Icc a b ∧ f x = .ok 0 then .ok h.choose
    else .error "ValueError: no root in bracket"
  | .error e, _ => .error e
  | .ok _, .error e => .error e

/-- `implied_volatility(type, option_price, S, K, T, r)` from
black_scholes.py lines 22-30: root-find the volatility on (1e-6, 5.0)
whose Black-Scholes price is the observed price; any ValueError — from the
bracket test or from `black_scholes` rejecting the option type inside the
objective — is caught and `np.nan` returned, modelled as `none`. -/
noncomputable def implied_volatility (kind : String) (option_price S K T r : ℝ) :
    Option ℝ :=
  match brentq (fun sigma =>
      (black_scholes kind S K T r sigma).map (fun v => v - option_price))
      1e-6 5.0 with
  | .ok x => some x
  | .error _ => none

lemma brentq_no_root (f : ℝ → Except String ℝ) (a b : ℝ)
    (hno : ∀ x ∈ Set.Icc a b, f x ≠ .ok 0) :
    ∀ y, brentq f a b ≠ .ok y := by
  intro y
  unfold brentq
  cases hfa : f a with
  | error e => simp
  | ok fa =>
    cases hfb : f b with
    | error e => simp
    | ok fb =>
      simp only
      split
      · simp
      · rw [dif_neg]
        · simp
        · rintro ⟨x, hx, hfx⟩
          exact hno x hx hfx

lemma brentq_root (f : ℝ → Except String ℝ) (a b fa fb : ℝ)
    (hfa : f a = .ok fa) (hfb : f b = .ok fb)
    (hsign : ¬ 0 < fa * fb) (hex : ∃ x, x ∈ Set.Icc a b ∧ f x = .ok 0) :
    ∃ x, brentq f a b = .ok x ∧ x ∈ Set.Icc a b ∧ f x = .ok 0 := by
  unfold brentq
  rw [hfa, hfb]
  simp only
  rw [if_neg hsign, dif_pos hex]
  exact ⟨hex.choose, rfl, hex.choose_spec.1, hex.choose_spec.2⟩

lemma objective_ok_zero {kind : String} {S K T r p x : ℝ} :
    (black_scholes kind S K T r x).map (fun v => v - p) = .ok 0
      ↔ black_scholes kind S K T r x = .ok p := by
  cases h : black_scholes kind S K T r x with
  | error e => simp [Except.map]
  | ok v =>
    simp only [Except.map, Except.ok.injEq]
    constructor
    · intro hv; rw [show v = p from by linarith]
    · intro hv; rw [hv.symm]; ring

/-- C5: the implied-volatility solver either returns the sentinel or an
exact root: (1) if no volatility in the bracket `[1e-6, 5.0]` reproduces
the observed price, the result is the NaN sentinel (`none`), not an
exception; (2) if the price is bracketed — the objective has opposite
(or zero) signs at the ends — and a root exists, the result is `some`
volatility in the bracket whose Black-Scholes price is exactly the
observed price. -/
theorem implied_volatility_sentinel_or_root (kind : String) (p S K T r : ℝ) :
    ((∀ σ ∈ Set.Icc (1e-6 : ℝ) 5.0, black_scholes kind S K T r σ ≠ .ok p) →
        implied_volatility kind p S K T r = none)
    ∧ (∀ pa pb : ℝ,
        black_scholes kind S K T r 1e-6 = .ok pa →
        black_scholes kind S K T r 5.0 = .ok pb →
        (pa - p) * (pb - p) ≤ 0 →
        (∃ σ ∈ Set.Icc (1e-6 : ℝ) 5.0, black_scholes kind S K T r σ = .ok p) →
        ∃ σ, implied_volatility kind p S K T r = some σ
          ∧ σ ∈ Set.Icc (1e-6 : ℝ) 5.0
          ∧ black_scholes kind S K T r σ = .ok p) := by
  constructor
  · intro hno
    have h := brentq_no_root (fun sigma =>
        (black_scholes kind S K T r sigma).map (fun v => v - p))
      1e-6 5.0 ?_
    · unfold implied_volatility
      cases hb : brentq (fun sigma =>
          (black_scholes kind S K T r sigma).map (fun v => v - p)) 1e-6 5.0 with
      | ok x => exact absurd hb (h x)
      | error e => rfl
    · intro x hx
      rw [Ne, objective_ok_zero]
      exact hno x hx
  · intro pa pb hpa hpb hsign hex
    have hroot := brentq_root (fun sigma =>
        (black_scholes kind S K T r sigma).map (fun v => v - p))
      1e-6 5.0 (pa - p) (pb - p)
      (by show (black_scholes kind S K T r 1e-6).map (fun v => v - p)
            = .ok (pa - p)
          rw [hpa]; rfl)
      (by show (black_scholes kind S K T r 5.0).map (fun v => v - p)
            = .ok (pb - p)
          rw [hpb]; rfl)
      (not_lt.mpr hsign) ?_
    · obtain ⟨x, hbx, hxmem, hfx⟩ := hroot
      refine ⟨x, ?_, hxmem, objective_ok_zero.mp hfx⟩
      unfold implied_volatility
      rw [hbx]
    · obtain ⟨σ, hσmem, hσ⟩ := hex
      exact ⟨σ, hσmem, objective_ok_zero.mpr hσ⟩

/-- Concrete evaluation of the call price at `S = K = T = 1`, `rf = 0`:
the price is `Φ(σ/2) - Φ(-σ/2)`. -/
lemma bs_call_spot_one (σ : ℝ) (hσ : σ ≠ 0) :
    black_scholes "call" 1 1 1 0 σ = .ok (normCdf (σ / 2) - normCdf (-(σ / 2))) := by
  have hr : contRate 0 = 0 := by
    unfold contRate
    norm_num
  have hd1 : bs_d1 1 1 1 0 σ = σ / 2 := by
    unfold bs_d1
    rw [hr, Real.sqrt_one]
    rw [show (1 : ℝ) / 1 = 1 by norm_num, Real.log_one]
    field_simp
    ring
  have hd2 : bs_d2 1 1 1 0 σ = -(σ / 2) := by
    unfold bs_d2
    rw [hd1, Real.sqrt_one]
    ring
  unfold black_scholes
  rw [if_pos rfl, hd1, hd2, hr]
  norm_num

/-- Witness for `implied_volatility_sentinel_or_root`: at
`S = K = T = 1`, `rf = 0`, the observed price 2 exceeds every achievable
call price, so the solver returns the sentinel; the observed price
`Φ(1/2) - Φ(-1/2)` is attained at `σ = 1` and the solver returns a
volatility that reproduces it exactly. -/
theorem implied_volatility_sentinel_or_root_witness :
    implied_volatility "call" 2 1 1 1 0 = none
    ∧ ∃ σ, implied_volatility "call" (normCdf (1 / 2) - normCdf (-(1 / 2))) 1 1 1 0
          = some σ
        ∧ σ ∈ Set.Icc (1e-6 : ℝ) 5.0
        ∧ black_scholes "call" 1 1 1 0 σ
          = .ok (normCdf (1 / 2) - normCdf (-(1 / 2))) := by
  constructor
  · apply (implied_volatility_sentinel_or_root "call" 2 1 1 1 0).1
    intro σ hσ
    have hσ0 : σ ≠ 0 := ne_of_gt (lt_of_lt_of_le (by norm_num) hσ.1)
    rw [bs_call_spot_one σ hσ0]
    simp only [Ne, Except.ok.injEq]
    intro h
    have h1 := normCdf_le_one (σ / 2)
    have h2 := normCdf_nonneg (-(σ / 2))
    linarith
  · apply (implied_volatility_sentinel_or_root "call"
        (normCdf (1 / 2) - normCdf (-(1 / 2))) 1 1 1 0).2
      (normCdf (1e-6 / 2) - normCdf (-(1e-6 / 2)))
      (normCdf (5.0 / 2) - normCdf (-(5.0 / 2)))
      (bs_call_spot_one 1e-6 (by norm_num))
      (bs_call_spot_one 5.0 (by norm_num))
    · have m1 : normCdf (1e-6 / 2) ≤ normCdf (1 / 2) := normCdf_mono (by norm_num)
      have m2 : normCdf (-(1 / 2)) ≤ normCdf (-(1e-6 / 2)) := normCdf_mono (by norm_num)
      have m3 : normCdf (1 / 2) ≤ normCdf (5.0 / 2) := normCdf_mono (by norm_num)
      have m4 : normCdf (-(5.0 / 2)) ≤ normCdf (-(1 / 2)) := normCdf_mono (by norm_num)
      apply mul_nonpos_iff.mpr
      right
      constructor <;> linarith
    · exact ⟨1, ⟨by norm_num, by norm_num⟩, by
        have h := bs_call_spot_one 1 one_ne_zero
        norm_num at h
        exact h⟩

/-- C9: for any option kind other than "call" or "put" the ValueError the
pricing function raises inside the root-finder's objective is caught by
the same handler as the bracketing failure, so `implied_volatility`
returns the NaN sentinel instead of propagating INVALID_OPTION_TYPE. -/
theorem invalid_kind_gives_sentinel (kind : String)
    (hc : kind ≠ "call") (hp : kind ≠ "put") (p S K T r : ℝ) :
    implied_volatility kind p S K T r = none := by
  have hbs : ∀ sigma : ℝ, black_scholes kind S K T r sigma
      = .error "ValueError: Invalid option type." := by
    intro sigma
    unfold black_scholes
    rw [if_neg hc, if_neg hp]
  unfold implied_volatility brentq
  simp only [hbs, Except.map]

/-- Witness for `invalid_kind_gives_sentinel` at the kind "straddle". -/
theorem invalid_kind_gives_sentinel_witness :
    implied_volatility "straddle" 3 100 95 1 0.05 = none :=
  invalid_kind_gives_sentinel "straddle" (by decide) (by decide) 3 100 95 1 0.05

/-! ### Portfolio tools (tools/portfolio_tools.py) -/

/-- The result object `scipy.optimize.minimize` returns; only the solution
vector `result.x` is consumed by the source. -/
structure OptResult (n : Nat) where
  x : Fin n → ℝ

/-- One equality-constraint entry of the scipy constraints tuple: the
function whose zero set is the feasible region. -/
abbrev Constraint (n : Nat) := (Fin n → ℝ) → ℝ

/-- The shape of the external numerical optimizer `scipy.optimize.minimize`
(objective, starting point, constraints).  It is an arbitrary external
collaborator: the claims below are proved for every such optimizer. -/
abbrev Minimizer (n : Nat) :=
  ((Fin n → ℝ) → ℝ) → (Fin n → ℝ) → List (Constraint n) → OptResult n

/-- `portfolio_volatility(weights, covariance_matrix)` from
portfolio_tools.py lines 11-12: `sqrt(wᵀ Σ w)`. -/
noncomputable def portfolio_volatility {n : Nat} (weights : Fin n → ℝ)
    (covariance_matrix : Matrix (Fin n) (Fin n) ℝ) : ℝ :=
  Real.sqrt (Matrix.dotProduct weights (covariance_matrix.mulVec weights))

/-- `EFRS_portfolio(target_return, expected_returns, covariance_matrix)`
from portfolio_tools.py lines 15-47: minimize portfolio volatility subject
to hitting the target return and fully-invested weights, starting from
equal weights; the returned expected return and volatility are recomputed
from `result.x` (lines 43-47). -/
noncomputable def EFRS_portfolio {n : Nat} (minimize : Minimizer n)
    (target_return : ℝ) (expected_returns : Fin n → ℝ)
    (covariance_matrix : Matrix (Fin n) (Fin n) ℝ) :
    (Fin n → ℝ) × ℝ × ℝ :=
  let constraints : List (Constraint n) :=
    [fun w => Matrix.dotProduct w expected_returns - target_return,
     fun w => (∑ i, w i) - 1]
  let initial_weights : Fin n → ℝ := fun _ => 1 / n
  let result := minimize (fun w => portfolio_volatility w covariance_matrix)
    initial_weights constraints
  let optimal_weights := result.x
  let Ereturn := Matrix.dotProduct optimal_weights expected_returns
  let volatility := portfolio_volatility optimal_weights covariance_matrix
  (result.x, Ereturn, volatility)

/-- `portfolio_sharpe` from portfolio_tools.py lines 50-119: the array-rank
and shape validations of lines 81-105 are enforced here by the `Fin n`
types; `(wᵀμ - rf)/σ`, or `(wᵀμ)/σ` when `zerocost` is set (in which case
the Python source never reads `rf`). -/
noncomputable def portfolio_sharpe {n : Nat} (weights expected_returns : Fin n → ℝ)
    (covariance_matrix : Matrix (Fin n) (Fin n) ℝ) (rf : ℝ) (zerocost : Bool) : ℝ :=
  let port_ret := Matrix.dotProduct weights expected_returns
  let port_vol := portfolio_volatility weights covariance_matrix
  if zerocost then port_ret / port_vol else (port_ret - rf) / port_vol

/-- `tangent_portfolio(expected_returns, covariance_matrix, rf, factors)`
from portfolio_tools.py lines 122-171, over a nonempty asset universe
(the factor branch reads `x[0]`): maximize the Sharpe ratio (minimize its
negation) subject to fully-invested weights, or, when `factors` is set,
subject to the first weight equal to 1 with the zero-cost Sharpe; in both
branches the returned expected return and volatility are recomputed from
`result.x` (lines 148-152 and 163-168). -/
noncomputable def tangent_portfolio {n : Nat} (minimize : Minimizer (n + 1))
    (expected_returns : Fin (n + 1) → ℝ)
    (covariance_matrix : Matrix (Fin (n + 1)) (Fin (n + 1)) ℝ)
    (rf : ℝ) (factors : Bool) : (Fin (n + 1) → ℝ) × ℝ × ℝ :=
  let initial_weights : Fin (n + 1) → ℝ := fun _ => 1 / (n + 1)
  if factors ≠ true then
    let result := minimize
      (fun x => -(portfolio_sharpe x expected_returns covariance_matrix rf false))
      initial_weights [fun x => (∑ i, x i) - 1]
    let tangent_weights := result.x
    (tangent_weights, Matrix.dotProduct tangent_weights expected_returns,
      portfolio_volatility tangent_weights covariance_matrix)
  else
    let result := minimize
      (fun x => -(portfolio_sharpe x expected_returns covariance_matrix rf true))
      initial_weights [fun x => x 0 - 1]
    let tangent_weights := result.x
    (tangent_weights, Matrix.dotProduct tangent_weights expected_returns,
      portfolio_volatility tangent_weights covariance_matrix)

/-! ### Claim about the portfolio optimizers -/

/-- C10: whatever vector the external numerical optimizer returns, the
`(weights, expected return, volatility)` triples of `EFRS_portfolio` and
`tangent_portfolio` (both branches) are internally consistent: the
returned expected return is the dot product of the returned weights with
the expected returns, and the returned volatility is `sqrt(wᵀ Σ w)` of
the returned weights — both are recomputed from `result.x` rather than
taken from the optimizer. -/
theorem optimizer_outputs_recomputed {n : Nat} (m1 : Minimizer n)
    (m2 : Minimizer (n + 1)) (target : ℝ)
    (mu1 : Fin n → ℝ) (cov1 : Matrix (Fin n) (Fin n) ℝ)
    (mu2 : Fin (n + 1) → ℝ) (cov2 : Matrix (Fin (n + 1)) (Fin (n + 1)) ℝ)
    (rf : ℝ) (factors : Bool) :
    ((EFRS_portfolio m1 target mu1 cov1).2.1
        = Matrix.dotProduct (EFRS_portfolio m1 target mu1 cov1).1 mu1
      ∧ (EFRS_portfolio m1 target mu1 cov1).2.2
        = portfolio_volatility (EFRS_portfolio m1 target mu1 cov1).1 cov1)
    ∧ ((tangent_portfolio m2 mu2 cov2 rf factors).2.1
        = Matrix.dotProduct (tangent_portfolio m2 mu2 cov2 rf factors).1 mu2
      ∧ (tangent_portfolio m2 mu2 cov2 rf factors).2.2
        = portfolio_volatility (tangent_portfolio m2 mu2 cov2 rf factors).1 cov2) := by
  refine ⟨⟨rfl, rfl⟩, ?_⟩
  unfold tangent_portfolio
  cases factors <;> simp

end SimpleFinance
